import Mathlib

/-!
Verification of the blackjack probability/decision engine of `src/casino.py`
(class `BlackjackTeacher`), shallowly embedded in Lean 4.

Conventions of the embedding:
* Python ints are `Nat` where the source only ever holds non-negative values
  (card point values, hand totals) and `Int` where it can go negative
  (the Hi-Lo running count, `num_decks` as a parameter).
* Python floats (`true_count`, the returned probabilities) are modelled
  exactly over `ℚ`.
* `random.shuffle` is modelled by an explicit `shuffle : List Card → List Card`
  parameter supplied by the caller; `random.choice(cards)` is modelled by an
  explicit stream of natural-number choices, `choiceAt cards n` picking index
  `n % cards.length`.  Every realizable run of the Python code corresponds to
  some choice of these parameters.
* The dealer-simulation `while` loop of `calculate_detailed_probability` can
  fail to terminate (when no candidate card is available); it is modelled with
  an explicit fuel parameter, `none` standing for "has not returned after
  `fuel` loop iterations".  Divergence of the source is then the statement
  that the model returns `none` for every fuel.
-/

/-- A playing card, mirroring the `Card` dataclass (src/casino.py lines 21-26).
Python dataclasses compare structurally on all fields, which `DecidableEq`
reproduces.  The float field `prob_win` (default `0.0`, never assigned
anywhere in the source) is modelled over `ℚ`. -/
@[ext]
structure Card where
  rank : String
  suit : String
  value : Nat
  prob_win : ℚ := 0
  deriving DecidableEq, Repr

/-- The session state of `BlackjackTeacher.__init__` (lines 29-52), restricted
to the engine fields (the pygame screen/font/clock handles and the derived
display caches `probability_breakdown` / `optimal_action` are rendering
surface, outside the claims).  Field defaults mirror `__init__` before its
initial `create_deck()` call. -/
structure GameState where
  credits : Int := 1000
  bet : Int := 100
  deck : List Card := []
  player_hand : List Card := []
  dealer_hand : List Card := []
  game_state : String := "betting"
  cards_seen : List Card := []
  running_count : Int := 0
  true_count : ℚ := 0
  last_simulation_results : List (String × ℚ) := []
  deriving DecidableEq, Repr

/-- The rank list of `create_deck` (line 55). -/
def ranks : List String :=
  ["2", "3", "4", "5", "6", "7", "8", "9", "10", "J", "Q", "K", "A"]

/-- The suit list of `create_deck` (line 56). -/
def suits : List String := ["♠", "♥", "♦", "♣"]

/-- The point value assigned in `create_deck` (lines 61-67): 11 for `A`,
10 for `K`/`Q`/`J`, and `int(rank)` otherwise; the `int(rank)` branch is
tabulated over the fixed rank list. -/
def rank_value (rank : String) : Nat :=
  if rank == "A" then 11
  else if rank == "K" ∨ rank == "Q" ∨ rank == "J" then 10
  else if rank == "10" then 10
  else if rank == "9" then 9
  else if rank == "8" then 8
  else if rank == "7" then 7
  else if rank == "6" then 6
  else if rank == "5" then 5
  else if rank == "4" then 4
  else if rank == "3" then 3
  else if rank == "2" then 2
  else 0

/-- The cards appended by `create_deck(num_decks)` (lines 58-68): for each of
`range(num_decks)` (empty when `num_decks <= 0`, as in Python), each suit,
each rank, one `Card(rank, suit, value)`. -/
def create_deck_cards (num_decks : Int) : List Card :=
  (List.range num_decks.toNat).flatMap fun _ =>
    suits.flatMap fun suit =>
      ranks.map fun rank => { rank := rank, suit := suit, value := rank_value rank }

/-- `create_deck` (lines 54-70): appends the fresh cards to `self.deck` and
shuffles in place.  `random.shuffle` is modelled by the explicit `shuffle`
parameter.  The source raises no error for any `num_decks`, so the model is a
total function with no error channel. -/
def create_deck (s : GameState) (num_decks : Int) (shuffle : List Card → List Card) :
    GameState :=
  { s with deck := shuffle (s.deck ++ create_deck_cards num_decks) }

/-- The ace-adding loop of `calculate_hand_value` (lines 83-87): each Ace in
turn is counted as 11 if that still fits within 21 at that moment, else as 1.
First argument: number of Aces left; second: the running total. -/
def add_aces : Nat → Nat → Nat
  | 0, value => value
  | aces + 1, value => add_aces aces (if value + 11 ≤ 21 then value + 11 else value + 1)

/-- `calculate_hand_value` (lines 72-89): one pass sums the non-Ace point
values and counts Aces, then the Aces are added greedily by `add_aces`. -/
def calculate_hand_value (hand : List Card) : Nat :=
  let folded := hand.foldl
    (fun (acc : Nat × Nat) card =>
      if card.rank == "A" then (acc.1, acc.2 + 1) else (acc.1 + card.value, acc.2))
    (0, 0)
  add_aces folded.2 folded.1

/-- The demotion loop of the spec's hand-valuation algorithm (spec section 4.2):
`while total > 21 and aceCount > 0: total -= 10; aceCount -= 1`.  This is the
comparison definition written from the spec's words, not from the source. -/
def spec_demote : Nat → Nat → Nat
  | total, 0 => total
  | total, aces + 1 => if 21 < total then spec_demote (total - 10) aces else total

/-- The spec's hand valuation (section 4.2), written from the spec's words for
comparison with `calculate_hand_value`: `total = nonAceSum + 11*aceCount`,
then demote Aces while the total exceeds 21. -/
def spec_hand_value (hand : List Card) : Nat :=
  let nonAceSum := (hand.filter fun card => !(card.rank == "A")).foldl
    (fun acc card => acc + card.value) 0
  let aceCount := (hand.filter fun card => card.rank == "A").length
  spec_demote (nonAceSum + 11 * aceCount) aceCount

/-- How many Aces are still counted as 11 when the spec's demotion loop
(section 4.2) stops; used for the spec's definition of a soft hand. -/
def spec_demote_aces : Nat → Nat → Nat
  | _, 0 => 0
  | total, aces + 1 => if 21 < total then spec_demote_aces (total - 10) aces else aces + 1

/-- The spec's softness test (section 4.2): after the demotion loop at least
one Ace is still counted as 11.  Written from the spec's words. -/
def spec_is_soft (hand : List Card) : Bool :=
  let nonAceSum := (hand.filter fun card => !(card.rank == "A")).foldl
    (fun acc card => acc + card.value) 0
  let aceCount := (hand.filter fun card => card.rank == "A").length
  0 < spec_demote_aces (nonAceSum + 11 * aceCount) aceCount

/-- The dealer up-card value of `get_optimal_action` (line 152):
`self.dealer_hand[0].value if self.dealer_hand else 0`. -/
def dealer_up_value (dealer : List Card) : Nat :=
  match dealer with
  | [] => 0
  | card :: _ => card.value

/-- The pair test of `get_optimal_action` (line 155): exactly two cards of
equal rank. -/
def is_pair_hand (player : List Card) : Bool :=
  match player with
  | [a, b] => a.rank == b.rank
  | _ => false

/-- `self.player_hand[0].value` (line 170); only consulted under the pair
test, which guarantees the hand is non-empty. -/
def pair_point_value (player : List Card) : Nat :=
  match player with
  | card :: _ => card.value
  | [] => 0

/-- `get_optimal_action` (lines 149-185).  Both fall-throughs to the final
`return "Consider odds"` (a pair of point value 9, and the unreachable tail of
the hard-hand chain) are modelled as explicit else-branches. -/
def get_optimal_action (player dealer : List Card) : String :=
  let player_value := calculate_hand_value player
  let dealer_up_card := dealer_up_value dealer
  let has_ace := player.any fun card => card.rank == "A"
  let is_pair := is_pair_hand player
  if 21 < player_value then "Bust"
  else if player_value = 21 then "Stand"
  else if has_ace then
    if 19 ≤ player_value then "Stand"
    else if player_value = 18 then
      if dealer_up_card < 9 then "Stand" else "Hit"
    else "Hit"
  else if is_pair then
    let pair_value := pair_point_value player
    if pair_value = 8 ∨ pair_value = 11 then "Split"
    else if pair_value = 10 then "Stand"
    else if pair_value ≤ 7 then "Hit"
    else "Consider odds"
  else
    if 17 ≤ player_value then "Stand"
    else if player_value ≤ 11 then "Hit"
    else if 12 ≤ player_value ∧ player_value ≤ 16 then
      if dealer_up_card < 7 then "Stand" else "Hit"
    else "Consider odds"

/-- The soft-hand table of claim C2 / spec section 4.5 rule 3, written from the
spec's words for comparison with `get_optimal_action`. -/
def spec_soft_rule (total up : Nat) : String :=
  if 19 ≤ total then "Stand"
  else if total = 18 then
    if up < 9 then "Stand" else "Hit"
  else "Hit"

/-- The hard-hand table of claim C2 / spec section 4.5 rule 5, written from the
spec's words for comparison with `get_optimal_action`. -/
def spec_hard_rule (total up : Nat) : String :=
  if 17 ≤ total then "Stand"
  else if total ≤ 11 then "Hit"
  else if up < 7 then "Stand"
  else "Hit"

/-- The decision procedure claim C2 describes, written from the claim's words:
soft hands (an Ace still counted as 11 after the spec valuation) take the
soft table, hands whose Aces have all been demoted take the hard table. -/
def c2_claim_action (player dealer : List Card) : String :=
  if spec_is_soft player then
    spec_soft_rule (spec_hand_value player) (dealer_up_value dealer)
  else
    spec_hard_rule (spec_hand_value player) (dealer_up_value dealer)

/-- `update_card_counting` (lines 259-268): Hi-Lo adjustment of the running
count, then the true count recomputed from the decks remaining in `self.deck`
(`self.running_count / remaining_decks if remaining_decks > 0 else 0`). -/
def update_card_counting (s : GameState) (card : Card) : GameState :=
  let rc : Int :=
    if 2 ≤ card.value ∧ card.value ≤ 6 then s.running_count + 1
    else if 10 ≤ card.value ∨ card.rank == "A" then s.running_count - 1
    else s.running_count
  let remaining_decks : ℚ := (s.deck.length : ℚ) / 52
  { s with
    running_count := rc
    true_count := if 0 < remaining_decks then (rc : ℚ) / remaining_decks else 0 }

/-- `draw_card` (lines 270-279): if the deck is empty, silently rebuild it via
`create_deck()` (default 6 decks, shuffled by the supplied `shuffle`); then
`self.deck.pop()` removes the LAST card, the counter is updated, and the card
is appended to the chosen hand.  `none` models the `IndexError` Python would
raise on popping an empty list (unreachable when `shuffle` permutes). -/
def draw_card (s : GameState) (for_player : Bool) (shuffle : List Card → List Card) :
    Option (Card × GameState) :=
  let s1 := if s.deck.isEmpty then create_deck s 6 shuffle else s
  match s1.deck.getLast? with
  | none => none
  | some card =>
    let s2 := update_card_counting { s1 with deck := s1.deck.dropLast } card
    let s3 :=
      if for_player then { s2 with player_hand := s2.player_hand ++ [card] }
      else { s2 with dealer_hand := s2.dealer_hand ++ [card] }
    some (card, s3)

/-- The list comprehension `[card for card in self.deck if card not in hands]`
(lines 117 and 129); `not in` is Python structural equality, i.e. `DecidableEq`
on `Card`.  Call sites pass the concatenation that the source spells
`self.player_hand + self.dealer_hand` resp. `temp_hand + temp_dealer`. -/
def availableCards (deck hands : List Card) : List Card :=
  deck.filter fun card => card ∉ hands

/-- `random.choice(cards)` with the random index supplied explicitly; call
sites only use it on non-empty lists, so the default is unreachable. -/
def choiceAt (cards : List Card) (n : Nat) : Card :=
  cards.getD (n % cards.length) { rank := "", suit := "", value := 0 }

/-- The dealer-simulation `while` loop of `calculate_detailed_probability`
(lines 128-131): while the trial dealer hand is below 17, recompute the
candidate pool (`self.deck` minus `temp_hand + temp_dealer`) and, if it is
non-empty, draw one random card into the trial dealer hand.  `fuel` bounds the
number of loop iterations (`none` = still looping after `fuel` iterations);
alongside the final dealer hand the model records, for each draw performed,
the pool it sampled from together with the drawn card — bookkeeping the source
computes at line 129 but does not store. -/
def dealerLoopT :
    Nat → List Card → List Card → List Card → List Nat →
    Option (List Card × List (List Card × Card))
  | 0, _, _, _, _ => none
  | fuel + 1, deck, temp_hand, temp_dealer, stream =>
    if calculate_hand_value temp_dealer < 17 then
      let avail := availableCards deck (temp_hand ++ temp_dealer)
      if avail.isEmpty then
        dealerLoopT fuel deck temp_hand temp_dealer stream
      else
        let card := choiceAt avail (stream.headD 0)
        match dealerLoopT fuel deck temp_hand (temp_dealer ++ [card]) stream.tail with
        | none => none
        | some (final, trace) => some (final, (avail, card) :: trace)
    else some (temp_dealer, [])

/-- One Monte Carlo trial of `calculate_detailed_probability` (lines 112-142):
copy the player hand; when `game_state == "playing"` draw one card from the
pool `self.deck` minus both real hands (a no-op when the pool is empty); if
the trial total busts, tally `"bust"`, otherwise run the dealer loop and
compare totals.  Returns the tallied outcome tag, or `none` if the dealer
loop is still running after `fuel` iterations. -/
def runTrial (deck player dealer : List Card) (gs : String) (fuel : Nat)
    (stream : List Nat) : Option String :=
  let step2 : List Card × List Nat :=
    if gs == "playing" then
      let avail := availableCards deck (player ++ dealer)
      if avail.isEmpty then (player, stream)
      else (player ++ [choiceAt avail (stream.headD 0)], stream.tail)
    else (player, stream)
  let temp_hand := step2.1
  let temp_value := calculate_hand_value temp_hand
  if 21 < temp_value then some "bust"
  else
    match dealerLoopT fuel deck temp_hand dealer step2.2 with
    | none => none
    | some (temp_dealer, _) =>
      let dealer_value := calculate_hand_value temp_dealer
      some
        (if 21 < dealer_value then "win"
         else if dealer_value < temp_value then "win"
         else if temp_value = dealer_value then "push"
         else "lose")

/-- The outcome tally dictionary `{"bust": 0, "win": 0, "push": 0, "lose": 0}`
(line 109), modelled as a structure with one field per fixed key. -/
structure Outcomes where
  bust : Nat := 0
  win : Nat := 0
  push : Nat := 0
  lose : Nat := 0
  deriving DecidableEq, Repr

/-- `outcomes[tag] += 1` for the tag a trial produced (lines 124, 136-142);
`runTrial` only emits the four fixed tags. -/
def bump (o : Outcomes) (tag : String) : Outcomes :=
  if tag == "bust" then { o with bust := o.bust + 1 }
  else if tag == "win" then { o with win := o.win + 1 }
  else if tag == "push" then { o with push := o.push + 1 }
  else { o with lose := o.lose + 1 }

/-- The `for _ in range(simulations)` loop (line 112): run `n` trials in
order, trial `i` consuming stream `i` of `streams` (Python's single global
random stream, cut at trial boundaries).  `none` as soon as one trial
diverges, since the Python loop would then never finish. -/
def runTrials (deck player dealer : List Card) (gs : String) (fuel : Nat) :
    List (List Nat) → Nat → Outcomes → Option Outcomes
  | _, 0, acc => some acc
  | streams, n + 1, acc =>
    match runTrial deck player dealer gs fuel (streams.headD []) with
    | none => none
    | some tag => runTrials deck player dealer gs fuel streams.tail n (bump acc tag)

/-- `simulations = 1000` (line 110). -/
def simulations : Nat := 1000

/-- The probability dictionary returned at line 147 (fixed keys
bust/win/push/lose), with float division modelled exactly over `ℚ`. -/
structure OutcomeDist where
  bust : ℚ
  win : ℚ
  push : ℚ
  lose : ℚ
  deriving DecidableEq, Repr

/-- `calculate_detailed_probability` (lines 103-147): immediate
`{bust: 1, win: 0, push: 0, lose: 0}` when the real player hand already
busts (before `last_simulation_results` is touched); otherwise 1000 Monte
Carlo trials are tallied, each count divided by `simulations`, and
`self.last_simulation_results` is set to the list of (tag, probability)
pairs in the dictionary's insertion order.  The returned `GameState` is the
post-call value of `self`. -/
def calculate_detailed_probability (s : GameState) (fuel : Nat)
    (streams : List (List Nat)) : Option (OutcomeDist × GameState) :=
  let player_value := calculate_hand_value s.player_hand
  if 21 < player_value then
    some ({ bust := 1, win := 0, push := 0, lose := 0 }, s)
  else
    match runTrials s.deck s.player_hand s.dealer_hand s.game_state fuel streams
        simulations {} with
    | none => none
    | some o =>
      let dist : OutcomeDist :=
        { bust := (o.bust : ℚ) / (simulations : ℚ)
          win := (o.win : ℚ) / (simulations : ℚ)
          push := (o.push : ℚ) / (simulations : ℚ)
          lose := (o.lose : ℚ) / (simulations : ℚ) }
      some (dist,
        { s with
          last_simulation_results :=
            [("bust", dist.bust), ("win", dist.win),
             ("push", dist.push), ("lose", dist.lose)] })

/-- Ten of spades. -/
def tenS : Card := { rank := "10", suit := "♠", value := 10 }

/-- Ten of hearts. -/
def tenH : Card := { rank := "10", suit := "♥", value := 10 }

/-- Ace of spades. -/
def aceS : Card := { rank := "A", suit := "♠", value := 11 }

/-- Ace of hearts. -/
def aceH : Card := { rank := "A", suit := "♥", value := 11 }

/-- Ace of diamonds. -/
def aceD : Card := { rank := "A", suit := "♦", value := 11 }

/-- Five of spades. -/
def fiveS : Card := { rank := "5", suit := "♠", value := 5 }

/-- Six of spades. -/
def sixS : Card := { rank := "6", suit := "♠", value := 6 }

/-- Seven of spades. -/
def sevenS : Card := { rank := "7", suit := "♠", value := 7 }

/-- Eight of spades. -/
def eightS : Card := { rank := "8", suit := "♠", value := 8 }

/-- Eight of hearts. -/
def eightH : Card := { rank := "8", suit := "♥", value := 8 }

/-- Eight of diamonds. -/
def eightD : Card := { rank := "8", suit := "♦", value := 8 }

/-- Nine of spades. -/
def nineS : Card := { rank := "9", suit := "♠", value := 9 }

/-- Nine of diamonds. -/
def nineD : Card := { rank := "9", suit := "♦", value := 9 }

/-- King of spades. -/
def kingS : Card := { rank := "K", suit := "♠", value := 10 }

/-- Queen of spades. -/
def queenS : Card := { rank := "Q", suit := "♠", value := 10 }

/-- Claim C3's failing state: mid-round (`game_state = "playing"`) with an
exhausted deck, player on a hard 17, dealer hand empty. -/
def s3 : GameState :=
  { deck := [], player_hand := [tenS, sevenS], dealer_hand := [],
    game_state := "playing" }

/-- Claim C4's failing state: exhausted deck with a non-zero Hi-Lo running
count carried over from the spent shoe. -/
def s4 : GameState := { deck := [], running_count := 5 }

/-- A state whose player hand already busts (K+Q+5 = 25), driving
`calculate_detailed_probability` through its early-return branch. -/
def sBust : GameState := { player_hand := [kingS, queenS, fiveS] }

/-- A second already-busted state (10+10+5 = 25) with a non-empty shoe,
non-empty dealer hand and a non-zero running count. -/
def sBust7 : GameState :=
  { deck := [kingS], player_hand := [tenS, tenH, fiveS], dealer_hand := [nineS],
    game_state := "playing", running_count := 2 }

/-- The two-card shoe snapshot of claim C6's trial trace. -/
def deck6 : List Card := [nineD, eightD]

/-- The player hand of claim C6's trial trace (hard 17). -/
def player6 : List Card := [tenS, sevenS]

/-- Ace of clubs: the last card of a freshly built (unshuffled) shoe, hence
the card `self.deck.pop()` removes right after an unshuffled rebuild. -/
def aceC : Card := { rank := "A", suit := "♣", value := 11 }

/-- The distribution of the early-return branch (player already busted). -/
def distBust : OutcomeDist := { bust := 1, win := 0, push := 0, lose := 0 }

/-- Claim C1: `calculate_hand_value` does NOT implement the spec's
demote-while-over-21 algorithm: on a ten plus two Aces (the claim's own
example) the source's greedy loop locks the first Ace at 11 and returns 22,
where the spec's algorithm returns the maximal legal valuation 12. -/
theorem c1_hand_value_divergence :
    calculate_hand_value [tenS, aceH, aceD] = 22 ∧
    spec_hand_value [tenS, aceH, aceD] = 12 := by decide

/-- Claim C4: when `draw_card` finds the shoe empty it rebuilds it via
`create_deck()`, but the Hi-Lo state is NOT reset: starting from an empty
deck with running count 5, the completed draw (of the rebuilt, unshuffled
shoe's last card, the Ace of clubs, a -1 card) leaves the running count at
5 - 1 = 4, not at the 0 - 1 = -1 a reset would give. -/
theorem c4_count_not_reset :
    (draw_card s4 true id).map (fun p => p.2.running_count) = some 4 ∧
    (draw_card s4 true id).map (fun p => p.1) = some aceC := by decide

/-- Claim C5: `create_deck` silently accepts a non-positive deck count: with
`num_decks = 0` it returns the state unchanged (adds no cards and raises
nothing), and with `num_decks = -3` it likewise builds an empty shoe; the
source has no `InvalidConfig` (nor any other) error channel. -/
theorem c5_invalid_decks_accepted :
    create_deck {} 0 id = ({} : GameState) ∧
    (create_deck {} (-3) id).deck = [] := by decide

/-- Claim C9: the pool filter of the simulator removes, from the snapshot
shoe, EVERY card structurally equal (same rank, suit, value, prob_win) to a
card of the hands — and on a two-copy shoe with one copy drawn the pool is
empty, strictly smaller than the one card that is physically undrawn. -/
theorem c9_structural_exclusion :
    (∀ (deck hands : List Card) (c c' : Card), c ∈ hands → c'.rank = c.rank →
      c'.suit = c.suit → c'.value = c.value → c'.prob_win = c.prob_win →
      c' ∉ availableCards deck hands) ∧
    (availableCards [tenS, tenS] [tenS]).length <
      [tenS, tenS].length - [tenS].length := by
  constructor
  · intro deck hands c c' hc hr hs hv hp hmem
    have hcc : c' = c := Card.ext hr hs hv hp
    subst hcc
    simp only [availableCards, List.mem_filter, decide_eq_true_eq] at hmem
    exact hmem.2 hc
  · decide

/-- Witness for claim C9's universally quantified part, at a two-copy shoe. -/
theorem c9_structural_exclusion_witness :
    tenS ∉ availableCards [tenS, tenS] [tenS] :=
  c9_structural_exclusion.1 [tenS, tenS] [tenS] tenS tenS (by decide) rfl rfl rfl rfl

/-- Claim C2 fails on the code: on A+6+10 against a dealer 9 — a hand whose
single Ace the valuation has demoted to 1, i.e. a hard 17 — the claim's
decision procedure (soft iff an Ace still counts as 11) says Stand, but
`get_optimal_action` classifies by `has_ace` (any Ace at all) and says Hit. -/
theorem c2_counterexample :
    get_optimal_action [aceS, sixS, tenS] [nineS] = "Hit" ∧
    c2_claim_action [aceS, sixS, tenS] [nineS] = "Stand" := by decide

/-- Claim C10 fails on the code as stated: a pair of eights against an empty
dealer hand is a hard 16 (no Ace anywhere), yet `get_optimal_action` returns
"Split" via the pair rule, not the "Stand" the claim's hard-12..16 clause
predicts. -/
theorem c10_counterexample :
    calculate_hand_value [eightS, eightH] = 16 ∧
    ([eightS, eightH].any fun card => card.rank == "A") = false ∧
    spec_hard_rule 16 (dealer_up_value []) = "Stand" ∧
    get_optimal_action [eightS, eightH] [] = "Split" := by decide

/-- Claim C2 as amended: below the Bust/21 cutoffs, `get_optimal_action`
treats a hand as soft exactly when it contains ANY Ace, even one demoted to
1 — such hands always take the claim's soft table — and only Ace-free
non-pair hands take the claim's hard table. -/
theorem c2_amended (player dealer : List Card)
    (hv : calculate_hand_value player ≤ 20) :
    ((player.any fun card => card.rank == "A") = true →
      get_optimal_action player dealer =
        spec_soft_rule (calculate_hand_value player) (dealer_up_value dealer)) ∧
    ((player.any fun card => card.rank == "A") = false →
      is_pair_hand player = false →
      get_optimal_action player dealer =
        spec_hard_rule (calculate_hand_value player) (dealer_up_value dealer)) := by
  have h1 : ¬ (21 < calculate_hand_value player) := by omega
  have h2 : ¬ (calculate_hand_value player = 21) := by omega
  constructor
  · intro hA
    simp only [get_optimal_action, spec_soft_rule, hA, if_true, if_neg h1, if_neg h2]
  · intro hA hP
    simp only [get_optimal_action, spec_hard_rule, hA, hP, if_neg h1, if_neg h2,
      Bool.false_eq_true, if_false]
    by_cases h17 : 17 ≤ calculate_hand_value player
    · simp [h17]
    · by_cases h11 : calculate_hand_value player ≤ 11
      · simp [h17, h11]
      · have h1216 : 12 ≤ calculate_hand_value player ∧
          calculate_hand_value player ≤ 16 := by omega
        simp [h17, h11, h1216]

/-- Witness for claim C2's amended theorem: soft 17 (A+6) against a dealer 9
takes the soft table and hits. -/
theorem c2_amended_witness :
    get_optimal_action [aceS, sixS] [nineS] = "Hit" := by
  have h := (c2_amended [aceS, sixS] [nineS] (by decide)).1 (by decide)
  rw [h]; decide

/-- Claim C10 as amended: with an empty dealer hand the up-card value is 0
and `get_optimal_action` still returns one of the five defined actions for
every player hand; an Ace-free, non-pair hard total 12..16 yields Stand
(0 < 7), and a hand holding an Ace with total 18 yields Stand (0 < 9). -/
theorem c10_amended (player : List Card) :
    get_optimal_action player [] ∈
      ["Bust", "Stand", "Hit", "Split", "Consider odds"] ∧
    ((player.any fun card => card.rank == "A") = false →
      is_pair_hand player = false →
      12 ≤ calculate_hand_value player → calculate_hand_value player ≤ 16 →
      get_optimal_action player [] = "Stand") ∧
    ((player.any fun card => card.rank == "A") = true →
      calculate_hand_value player = 18 →
      get_optimal_action player [] = "Stand") := by
  refine ⟨?_, ?_, ?_⟩
  · simp only [get_optimal_action]
    repeat' split
    all_goals decide
  · intro hA hP h12 h16
    have h1 : ¬ (21 < calculate_hand_value player) := by omega
    have h2 : ¬ (calculate_hand_value player = 21) := by omega
    have h17 : ¬ (17 ≤ calculate_hand_value player) := by omega
    have h11 : ¬ (calculate_hand_value player ≤ 11) := by omega
    have h1216 : 12 ≤ calculate_hand_value player ∧
      calculate_hand_value player ≤ 16 := by omega
    simp [get_optimal_action, dealer_up_value, hA, hP, h1, h2, h17, h11, h1216]
  · intro hA h18
    simp [get_optimal_action, dealer_up_value, hA, h18]

/-- Witness for claim C10's amended theorem: an Ace-free non-pair hard 16
against an empty dealer hand stands. -/
theorem c10_amended_witness :
    get_optimal_action [tenS, sixS] [] = "Stand" :=
  (c10_amended [tenS, sixS]).2.1 (by decide) (by decide) (by decide) (by decide)

/-- Membership in the simulator's candidate pool: in the shoe snapshot and
not (structurally) in the excluded hands. -/
theorem mem_availableCards {deck hands : List Card} {x : Card} :
    x ∈ availableCards deck hands ↔ x ∈ deck ∧ x ∉ hands := by
  simp [availableCards, List.mem_filter]

/-- A card of the excluded hands never appears in the candidate pool. -/
theorem not_mem_availableCards {deck hands : List Card} {x : Card}
    (h : x ∈ hands) : x ∉ availableCards deck hands := by
  intro hmem
  exact (mem_availableCards.mp hmem).2 h

/-- With an empty shoe snapshot the dealer loop's candidate pool is always
empty, so a trial dealer hand below 17 loops forever: no amount of fuel makes
the loop return. -/
theorem dealerLoopT_stuck (fuel : Nat) :
    ∀ (temp_hand temp_dealer : List Card) (stream : List Nat),
      calculate_hand_value temp_dealer < 17 →
      dealerLoopT fuel [] temp_hand temp_dealer stream = none := by
  induction fuel with
  | zero => intro th td stream h; rfl
  | succ n ih =>
    intro th td stream h
    simp only [dealerLoopT]
    rw [if_pos h]
    exact ih th td stream h

/-- One trial of claim C3's failing state never finishes: the player draw is
a no-op on the empty pool, the player stands on 17, and the dealer loop spins
on its empty pool below 17. -/
theorem runTrial_s3_none (fuel : Nat) (stream : List Nat) :
    runTrial [] [tenS, sevenS] [] "playing" fuel stream = none := by
  have h := dealerLoopT_stuck fuel [tenS, sevenS] [] stream (by decide)
  simp +decide [runTrial, availableCards, h]

/-- A run of trials diverges as soon as its first trial does. -/
theorem runTrials_none_head (deck player dealer : List Card) (gs : String)
    (fuel : Nat) (streams : List (List Nat)) (n : Nat) (acc : Outcomes)
    (h : runTrial deck player dealer gs fuel (streams.headD []) = none) :
    runTrials deck player dealer gs fuel streams (n + 1) acc = none := by
  simp only [runTrials, h]

/-- Claim C3 fails on the code: on state `s3` (mid-round, empty shoe
snapshot, player on a non-busted 17, dealer hand empty)
`calculate_detailed_probability` never returns — its dealer `while` loop
makes no progress on the empty pool yet its guard stays true, so the model
yields `none` for every fuel bound and every random stream, instead of the
distribution the claim promises. -/
theorem c3_simulator_diverges (fuel : Nat) (streams : List (List Nat)) :
    calculate_detailed_probability s3 fuel streams = none := by
  have hT : runTrial s3.deck s3.player_hand s3.dealer_hand s3.game_state fuel
      (streams.headD []) = none := runTrial_s3_none fuel (streams.headD [])
  have hR : runTrials s3.deck s3.player_hand s3.dealer_hand s3.game_state fuel
      streams simulations {} = none := by
    have hs : simulations = 999 + 1 := rfl
    rw [hs]
    exact runTrials_none_head _ _ _ _ _ _ _ _ hT
  simp +decide [calculate_detailed_probability, hR]

/-- Every candidate pool recorded during the dealer loop excludes every card
of the trial-local hands the loop was entered with: the pool recomputed at
each draw filters out `temp_hand + temp_dealer`. -/
theorem dealerLoopT_excludes (fuel : Nat) :
    ∀ (deck temp_hand temp_dealer : List Card) (stream : List Nat)
      (final : List Card) (trace : List (List Card × Card)),
      dealerLoopT fuel deck temp_hand temp_dealer stream = some (final, trace) →
      ∀ pc ∈ trace, ∀ d ∈ temp_hand ++ temp_dealer, d ∉ pc.1 := by
  induction fuel with
  | zero =>
    intro deck th td stream final trace h
    exact absurd h (by simp [dealerLoopT])
  | succ n ih =>
    intro deck th td stream final trace h pc hpc d hd
    simp only [dealerLoopT] at h
    split at h
    · split at h
      · exact ih deck th td stream final trace h pc hpc d hd
      · split at h
        · exact absurd h (by simp)
        · rename_i f' tr' hrec
          simp only [Option.some.injEq, Prod.mk.injEq] at h
          obtain ⟨-, htr⟩ := h
          subst htr
          rcases List.mem_cons.mp hpc with hpc1 | hpc2
          · subst hpc1
            exact not_mem_availableCards hd
          · refine ih deck th
              (td ++ [choiceAt (availableCards deck (th ++ td)) (stream.headD 0)])
              stream.tail f' tr' hrec pc hpc2 d ?_
            simp only [List.mem_append] at hd ⊢
            tauto
    · simp only [Option.some.injEq, Prod.mk.injEq] at h
      obtain ⟨-, htr⟩ := h
      subst htr
      simp at hpc

/-- Claim C6 as amended: within one trial the dealer draws are NOT with
replacement — each draw's candidate pool is recomputed minus the trial-local
hands, so a card drawn at any earlier dealer draw of the trial is absent from
every later draw's pool. -/
theorem c6_amended (fuel : Nat) (deck temp_hand temp_dealer : List Card)
    (stream : List Nat) (final : List Card) (trace : List (List Card × Card))
    (h : dealerLoopT fuel deck temp_hand temp_dealer stream = some (final, trace)) :
    trace.Pairwise fun a b => a.2 ∉ b.1 := by
  induction fuel generalizing temp_dealer stream final trace with
  | zero => exact absurd h (by simp [dealerLoopT])
  | succ n ih =>
    simp only [dealerLoopT] at h
    split at h
    · split at h
      · exact ih _ _ _ _ h
      · split at h
        · exact absurd h (by simp)
        · rename_i f' tr' hrec
          simp only [Option.some.injEq, Prod.mk.injEq] at h
          obtain ⟨-, htr⟩ := h
          subst htr
          refine List.Pairwise.cons ?_ (ih _ _ _ _ hrec)
          intro b hb
          refine dealerLoopT_excludes n deck temp_hand
            (temp_dealer ++ [choiceAt (availableCards deck (temp_hand ++ temp_dealer))
              (stream.headD 0)])
            stream.tail f' tr' hrec b hb _ ?_
          simp
    · simp only [Option.some.injEq, Prod.mk.injEq] at h
      obtain ⟨-, htr⟩ := h
      subst htr
      exact List.Pairwise.nil

/-- Claim C6 fails on the code as stated: in a concrete trial on the two-card
shoe `deck6`, the dealer's first draw takes the 9♦ from the pool
[9♦, 8♦], and the second draw's pool is recomputed as [8♦] — not the full
shoe-minus-hands pool the claim asserts — so the 9♦ cannot reappear. -/
theorem c6_counterexample :
    dealerLoopT 10 deck6 player6 [] [0, 0] =
      some ([nineD, eightD], [([nineD, eightD], nineD), ([eightD], eightD)]) ∧
    ¬ (∀ pc ∈ [(([nineD, eightD] : List Card), nineD),
               (([eightD] : List Card), eightD)],
        pc.1 = availableCards deck6 (player6 ++ [])) ∧
    nineD ∉ ([eightD] : List Card) := by decide

/-- Witness for claim C6's amended theorem, on the concrete two-draw trace of
`deck6`: the first-drawn 9♦ is not in the second draw's pool. -/
theorem c6_amended_witness :
    ([(([nineD, eightD] : List Card), nineD),
      (([eightD] : List Card), eightD)] : List (List Card × Card)).Pairwise
      (fun a b => a.2 ∉ b.1) :=
  c6_amended 10 deck6 player6 [] [0, 0] [nineD, eightD]
    [([nineD, eightD], nineD), ([eightD], eightD)] (by decide)

/-- Claim C7: `calculate_detailed_probability` is read-only over the game
state — whenever it returns, the shoe sequence, both hands, and the Hi-Lo
running and true counts of the resulting state are those it started from
(only the `last_simulation_results` display cache may change, and the counter
update is never invoked for any hypothetical card of the simulation). -/
theorem c7_frame (s : GameState) (fuel : Nat) (streams : List (List Nat))
    (dist : OutcomeDist) (s' : GameState)
    (h : calculate_detailed_probability s fuel streams = some (dist, s')) :
    s'.deck = s.deck ∧ s'.player_hand = s.player_hand ∧
    s'.dealer_hand = s.dealer_hand ∧ s'.running_count = s.running_count ∧
    s'.true_count = s.true_count := by
  simp only [calculate_detailed_probability] at h
  split at h
  · simp only [Option.some.injEq, Prod.mk.injEq] at h
    obtain ⟨-, hs⟩ := h
    subst hs
    exact ⟨rfl, rfl, rfl, rfl, rfl⟩
  · split at h
    · exact absurd h (by simp)
    · simp only [Option.some.injEq, Prod.mk.injEq] at h
      obtain ⟨-, hs⟩ := h
      subst hs
      exact ⟨rfl, rfl, rfl, rfl, rfl⟩

/-- Witness for claim C7, through the early-return branch (player already
busted) on a state with a non-empty shoe, non-empty hands and a non-zero
count: the call returns and every engine field is unchanged. -/
theorem c7_frame_witness :
    calculate_detailed_probability sBust7 5 [] = some (distBust, sBust7) ∧
    (sBust7.deck = sBust7.deck ∧ sBust7.player_hand = sBust7.player_hand ∧
     sBust7.dealer_hand = sBust7.dealer_hand ∧
     sBust7.running_count = sBust7.running_count ∧
     sBust7.true_count = sBust7.true_count) :=
  ⟨by decide, c7_frame sBust7 5 [] distBust sBust7 (by decide)⟩

/-- `bump` adds exactly one tally, whatever the tag. -/
theorem bump_sum (o : Outcomes) (tag : String) :
    (bump o tag).bust + (bump o tag).win + (bump o tag).push + (bump o tag).lose =
      o.bust + o.win + o.push + o.lose + 1 := by
  unfold bump
  repeat' split
  all_goals simp
  all_goals omega

/-- Each completed trial adds exactly one tally: after `n` trials the four
counters total the starting total plus `n`. -/
theorem runTrials_sum (deck player dealer : List Card) (gs : String) (fuel : Nat) :
    ∀ (n : Nat) (streams : List (List Nat)) (acc o : Outcomes),
      runTrials deck player dealer gs fuel streams n acc = some o →
      o.bust + o.win + o.push + o.lose =
        acc.bust + acc.win + acc.push + acc.lose + n := by
  intro n
  induction n with
  | zero =>
    intro streams acc o h
    simp only [runTrials, Option.some.injEq] at h
    subst h
    omega
  | succ n ih =>
    intro streams acc o h
    simp only [runTrials] at h
    split at h
    · exact absurd h (by simp)
    · rename_i tag htag
      have h1 := ih streams.tail (bump acc tag) o h
      have h2 := bump_sum acc tag
      omega

/-- Claim C8: whenever `calculate_detailed_probability` returns, the four
probabilities each lie in [0,1] and sum exactly to 1 (float arithmetic
modelled exactly over `ℚ`): every trial increments exactly one counter and
each counter is divided by the trial count. -/
theorem c8_distribution (s : GameState) (fuel : Nat) (streams : List (List Nat))
    (dist : OutcomeDist) (s' : GameState)
    (h : calculate_detailed_probability s fuel streams = some (dist, s')) :
    (0 ≤ dist.bust ∧ dist.bust ≤ 1) ∧ (0 ≤ dist.win ∧ dist.win ≤ 1) ∧
    (0 ≤ dist.push ∧ dist.push ≤ 1) ∧ (0 ≤ dist.lose ∧ dist.lose ≤ 1) ∧
    dist.bust + dist.win + dist.push + dist.lose = 1 := by
  simp only [calculate_detailed_probability] at h
  split at h
  · simp only [Option.some.injEq, Prod.mk.injEq] at h
    obtain ⟨hd, -⟩ := h
    subst hd
    norm_num
  · split at h
    · exact absurd h (by simp)
    · rename_i o ho
      simp only [Option.some.injEq, Prod.mk.injEq] at h
      obtain ⟨hd, -⟩ := h
      subst hd
      have htot := runTrials_sum s.deck s.player_hand s.dealer_hand s.game_state
        fuel simulations streams {} o ho
      have h1000 : o.bust + o.win + o.push + o.lose = 1000 := by
        simpa [simulations] using htot
      have hsum : (o.bust : ℚ) + o.win + o.push + o.lose = 1000 := by
        exact_mod_cast h1000
      have hval : (simulations : ℚ) = 1000 := by norm_num [simulations]
      refine ⟨⟨by positivity, ?_⟩, ⟨by positivity, ?_⟩, ⟨by positivity, ?_⟩,
        ⟨by positivity, ?_⟩, ?_⟩
      · rw [hval, div_le_one (by norm_num)]
        exact_mod_cast by omega
      · rw [hval, div_le_one (by norm_num)]
        exact_mod_cast by omega
      · rw [hval, div_le_one (by norm_num)]
        exact_mod_cast by omega
      · rw [hval, div_le_one (by norm_num)]
        exact_mod_cast by omega
      · rw [hval, div_add_div_same, div_add_div_same, div_add_div_same, hsum]
        norm_num

/-- Witness for claim C8, through the early-return branch on an already
busted player hand. -/
theorem c8_distribution_witness :
    calculate_detailed_probability sBust 5 [] = some (distBust, sBust) ∧
    ((0 ≤ distBust.bust ∧ distBust.bust ≤ 1) ∧
     (0 ≤ distBust.win ∧ distBust.win ≤ 1) ∧
     (0 ≤ distBust.push ∧ distBust.push ≤ 1) ∧
     (0 ≤ distBust.lose ∧ distBust.lose ≤ 1) ∧
     distBust.bust + distBust.win + distBust.push + distBust.lose = 1) :=
  ⟨by decide, c8_distribution sBust 5 [] distBust sBust (by decide)⟩
